import Mathlib

/-!
The owning pointer `eda::unique_ptr`.

A shallow embedding of the scalar owning pointer of `unique_ptr.h` and of its array
specialisation of `unique_ptr_array.h`.

* A raw handle `T*` is an address, a natural number; the null pointer is `0`.
* A wrapper object is the pair of its two data members, `m_deleter` and `m_pointer`.
* Member functions take `this` (and their reference parameters) as the address of a wrapper
  object in a memory `Mem`, so that two references may denote the same object, as in
  `a = std::move(a)`.
* What a deleter does to the resource lies outside the class.  A call `d(p)` is recorded in
  the trace `Mem.calls` as the pair of the deleter object called and the handle passed.
* `Deleter` is a type of deleter values: the embedding covers deleters stored by value.
  Copying or moving a deleter yields an equal value.
-/

namespace eda

/-- The type `pointer_type = T*`: an address. -/
abbrev pointer_type := Nat

/-- The null pointer, also the value of `pointer_type()`. -/
def nullptr : pointer_type := 0

/-- The data members of `class unique_ptr`. -/
structure unique_ptr (Deleter : Type) where
  m_deleter : Deleter
  m_pointer : pointer_type
deriving DecidableEq, Repr

/-- One call `d(p)` of a deleter object `d` on a handle `p`. -/
structure Call (Deleter : Type) where
  deleter : Deleter
  arg : pointer_type
deriving DecidableEq, Repr

/-- The memory: the wrapper object at each address and the trace of deleter calls so far,
oldest first. -/
structure Mem (Deleter : Type) where
  obj : Nat → unique_ptr Deleter
  calls : List (Call Deleter)

variable {Deleter : Type}

/-- The assignment `m_pointer = p` inside the object at `this`. -/
def set_pointer (this : Nat) (p : pointer_type) (m : Mem Deleter) : Mem Deleter :=
  { m with obj := Function.update m.obj this { m.obj this with m_pointer := p } }

/-- The assignment or initialisation `m_deleter = d` inside the object at `this`. -/
def set_deleter (this : Nat) (d : Deleter) (m : Mem Deleter) : Mem Deleter :=
  { m with obj := Function.update m.obj this { m.obj this with m_deleter := d } }

/-- The call `d(p)`: appended to the trace. -/
def invoke (d : Deleter) (p : pointer_type) (m : Mem Deleter) : Mem Deleter :=
  { m with calls := m.calls ++ [⟨d, p⟩] }

/-- The assignment `tmp = v` to a prvalue temporary `tmp`: the temporary takes the value `v`
and dies at the end of the full expression; no object in memory is written. -/
def assign_temporary (_tmp v : Deleter) : Deleter := v

/-- The member `pointer_type get() const noexcept`: `return m_pointer;`. -/
def get (this : Nat) (m : Mem Deleter) : pointer_type :=
  (m.obj this).m_pointer

/-- The member `Deleter get_deleter() noexcept`: `return m_deleter;`.  The return type is
`Deleter`, not `Deleter&`: the caller receives a copy. -/
def get_deleter (this : Nat) (m : Mem Deleter) : Deleter :=
  (m.obj this).m_deleter

/-- The constructor `unique_ptr()`: `m_deleter(Deleter()), m_pointer(pointer_type())`. -/
def unique_ptr_default [Inhabited Deleter] (this : Nat) (m : Mem Deleter) : Mem Deleter :=
  set_pointer this nullptr (set_deleter this default m)

/-- The constructor `unique_ptr(pointer_type ptr)`: `m_deleter(Deleter()), m_pointer(ptr)`. -/
def unique_ptr_from_pointer [Inhabited Deleter] (this : Nat) (ptr : pointer_type)
    (m : Mem Deleter) : Mem Deleter :=
  set_pointer this ptr (set_deleter this default m)

/-- The constructor `unique_ptr(pointer_type ptr, const Deleter& del)`:
`m_deleter(del), m_pointer(ptr)`. -/
def unique_ptr_from_pointer_deleter (this : Nat) (ptr : pointer_type) (del : Deleter)
    (m : Mem Deleter) : Mem Deleter :=
  set_pointer this ptr (set_deleter this del m)

/-- The member `release()`:
`pointer_type ptr = get(); m_pointer = nullptr; return ptr;`. -/
def release (this : Nat) (m : Mem Deleter) : pointer_type × Mem Deleter :=
  let ptr := get this m
  let m1 := set_pointer this nullptr m
  (ptr, m1)

/-- The member `reset(pointer_type ptr = pointer_type())`:
`if (ptr != get()) { get_deleter()(get()); m_pointer = ptr; }`. -/
def reset (this : Nat) (ptr : pointer_type) (m : Mem Deleter) : Mem Deleter :=
  if ptr ≠ get this m then
    let m1 := invoke (get_deleter this m) (get this m) m
    set_pointer this ptr m1
  else
    m

/-- The constructor `unique_ptr(unique_ptr&& ptr)`:
`m_deleter(std::forward<Deleter>(ptr.get_deleter())), m_pointer(ptr.release())`,
the members initialised in their declaration order, `m_deleter` first. -/
def unique_ptr_move (this ptr : Nat) (m : Mem Deleter) : Mem Deleter :=
  let m1 := set_deleter this (get_deleter ptr m) m
  let r := release ptr m1
  set_pointer this r.1 r.2

/-- The destructor `~unique_ptr()`: `reset();`. -/
def destructor (this : Nat) (m : Mem Deleter) : Mem Deleter :=
  reset this nullptr m

/-- The move assignment `operator= (unique_ptr&& r)`:
`reset(r.release()); get_deleter() = std::move(r.get_deleter()); return *this;`.
Both calls of `get_deleter` return a copy, so the second statement assigns one temporary to
another. -/
def operator_assign_move (this r : Nat) (m : Mem Deleter) : Mem Deleter :=
  let p := release r m
  let m1 := reset this p.1 p.2
  let _tmp := assign_temporary (get_deleter this m1) (get_deleter r m1)
  m1

/-- The assignment `operator= (std::nullptr_t)`: `reset(); return *this;`. -/
def operator_assign_nullptr (this : Nat) (m : Mem Deleter) : Mem Deleter :=
  reset this nullptr m

/-- The conversion `explicit operator bool() const`: `return get() != nullptr;`. -/
def operator_bool (this : Nat) (m : Mem Deleter) : Bool :=
  decide (get this m ≠ nullptr)

/-- The member `swap(unique_ptr&& ptr)`:
`std::swap(m_pointer, ptr.m_pointer); std::swap(m_deleter, ptr.m_deleter);`. -/
def swap (this ptr : Nat) (m : Mem Deleter) : Mem Deleter :=
  let p1 := get this m
  let p2 := get ptr m
  let m1 := set_pointer ptr p1 (set_pointer this p2 m)
  let d1 := get_deleter this m1
  let d2 := get_deleter ptr m1
  set_deleter ptr d1 (set_deleter this d2 m1)

/-! ## The array specialisation `unique_ptr<T[], Deleter>` of `unique_ptr_array.h` -/

/-- The data members of `class unique_ptr<T[], Deleter>`, in their declaration order:
`m_pointer` first, `m_deleter` second. -/
structure unique_ptr_array (Deleter : Type) where
  m_pointer : pointer_type
  m_deleter : Deleter
deriving DecidableEq, Repr

/-- The memory of array wrappers: the wrapper object at each address and the trace of deleter
calls so far, oldest first. -/
structure ArrayMem (Deleter : Type) where
  obj : Nat → unique_ptr_array Deleter
  calls : List (Call Deleter)

namespace unique_ptr_array

/-- The assignment or initialisation `m_pointer = p` inside the array wrapper at `this`. -/
def set_pointer (this : Nat) (p : pointer_type) (m : ArrayMem Deleter) : ArrayMem Deleter :=
  { m with obj := Function.update m.obj this { m.obj this with m_pointer := p } }

/-- The assignment or initialisation `m_deleter = d` inside the array wrapper at `this`. -/
def set_deleter (this : Nat) (d : Deleter) (m : ArrayMem Deleter) : ArrayMem Deleter :=
  { m with obj := Function.update m.obj this { m.obj this with m_deleter := d } }

/-- The call `d(p)`: appended to the trace. -/
def invoke (d : Deleter) (p : pointer_type) (m : ArrayMem Deleter) : ArrayMem Deleter :=
  { m with calls := m.calls ++ [⟨d, p⟩] }

/-- The member `pointer_type get() const noexcept`: `return m_pointer;`. -/
def get (this : Nat) (m : ArrayMem Deleter) : pointer_type :=
  (m.obj this).m_pointer

/-- The member `Deleter get_deleter() noexcept`: `return m_deleter;`, a copy. -/
def get_deleter (this : Nat) (m : ArrayMem Deleter) : Deleter :=
  (m.obj this).m_deleter

/-- The constructor `unique_ptr()`: `m_pointer(pointer_type()), m_deleter(Deleter())`. -/
def unique_ptr_default [Inhabited Deleter] (this : Nat) (m : ArrayMem Deleter) :
    ArrayMem Deleter :=
  set_deleter this default (set_pointer this nullptr m)

/-- The constructor `unique_ptr(pointer_type ptr)`: `m_pointer(ptr), m_deleter(Deleter())`. -/
def unique_ptr_from_pointer [Inhabited Deleter] (this : Nat) (ptr : pointer_type)
    (m : ArrayMem Deleter) : ArrayMem Deleter :=
  set_deleter this default (set_pointer this ptr m)

/-- The constructor `unique_ptr(pointer_type ptr, const Deleter& del)`, written
`m_deleter(del), m_pointer(ptr)`; the members are initialised in their declaration order,
`m_pointer` first. -/
def unique_ptr_from_pointer_deleter (this : Nat) (ptr : pointer_type) (del : Deleter)
    (m : ArrayMem Deleter) : ArrayMem Deleter :=
  set_deleter this del (set_pointer this ptr m)

/-- The member `release()`:
`pointer_type ptr = get(); m_pointer = nullptr; return ptr;`. -/
def release (this : Nat) (m : ArrayMem Deleter) : pointer_type × ArrayMem Deleter :=
  let ptr := get this m
  let m1 := set_pointer this nullptr m
  (ptr, m1)

/-- The member `reset(pointer_type ptr = pointer_type())`:
`if (ptr != get()) { get_deleter()(get()); m_pointer = ptr; }`. -/
def reset (this : Nat) (ptr : pointer_type) (m : ArrayMem Deleter) : ArrayMem Deleter :=
  if ptr ≠ get this m then
    let m1 := invoke (get_deleter this m) (get this m) m
    set_pointer this ptr m1
  else
    m

/-- The constructor `unique_ptr(unique_ptr&& ptr)`, written
`m_deleter(std::forward<Deleter>(ptr.get_deleter())), m_pointer(ptr.release())`; the members
are initialised in their declaration order, so `m_pointer(ptr.release())` runs first. -/
def unique_ptr_move (this ptr : Nat) (m : ArrayMem Deleter) : ArrayMem Deleter :=
  let r := release ptr m
  let m1 := set_pointer this r.1 r.2
  set_deleter this (get_deleter ptr m1) m1

/-- The destructor `~unique_ptr()`: `reset();`. -/
def destructor (this : Nat) (m : ArrayMem Deleter) : ArrayMem Deleter :=
  reset this nullptr m

/-- The move assignment `operator= (unique_ptr&& r)`:
`reset(r.release()); get_deleter() = std::move(r.get_deleter()); return *this;`. -/
def operator_assign_move (this r : Nat) (m : ArrayMem Deleter) : ArrayMem Deleter :=
  let p := release r m
  let m1 := reset this p.1 p.2
  let _tmp := assign_temporary (get_deleter this m1) (get_deleter r m1)
  m1

/-- The assignment `operator= (std::nullptr_t)`: `reset(); return *this;`. -/
def operator_assign_nullptr (this : Nat) (m : ArrayMem Deleter) : ArrayMem Deleter :=
  reset this nullptr m

/-- The member `swap(unique_ptr&& ptr)`:
`std::swap(m_pointer, ptr.m_pointer); std::swap(m_deleter, ptr.m_deleter);`. -/
def swap (this ptr : Nat) (m : ArrayMem Deleter) : ArrayMem Deleter :=
  let p1 := get this m
  let p2 := get ptr m
  let m1 := set_pointer ptr p1 (set_pointer this p2 m)
  let d1 := get_deleter this m1
  let d2 := get_deleter ptr m1
  set_deleter ptr d1 (set_deleter this d2 m1)

/-- The member `value_type operator[] (size_t idx) const`: `return get()[idx];`.
The elements live outside the wrapper, in `elems`: the element at address `q`, when one is
stored there.  Addresses count elements, so `get()[idx]` reads address `get() + idx`;
`none` stands for a read of storage that holds no element. -/
def operator_index {T : Type} (elems : Nat → Option T) (this : Nat) (idx : Nat)
    (m : ArrayMem Deleter) : Option T :=
  elems (get this m + idx)

end unique_ptr_array

/-- The scalar memory that corresponds to a memory of array wrappers: the same handle and
deleter at each address, the same trace. -/
def ArrayMem.toScalar (m : ArrayMem Deleter) : Mem Deleter where
  obj := fun a => ⟨(m.obj a).m_deleter, (m.obj a).m_pointer⟩
  calls := m.calls

/-- The array of elements `xs` is stored at handle `p`: element `i` at address `p + i`. -/
def stores {T : Type} (elems : Nat → Option T) (p : pointer_type) (xs : List T) : Prop :=
  ∀ i, i < xs.length → elems (p + i) = xs[i]?

instance {T : Type} [DecidableEq T] (elems : Nat → Option T) (p : pointer_type)
    (xs : List T) : Decidable (stores elems p xs) :=
  inferInstanceAs (Decidable (∀ i, i < xs.length → elems (p + i) = xs[i]?))

/-! ## Systems of wrappers -/

/-- No two of the wrappers at the addresses `live` hold the same non-empty handle. -/
def exclusive (live : List Nat) (m : Mem Deleter) : Prop :=
  ∀ x ∈ live, ∀ y ∈ live, x ≠ y → get x m ≠ nullptr → get x m ≠ get y m

instance (live : List Nat) (m : Mem Deleter) : Decidable (exclusive live m) :=
  inferInstanceAs (Decidable
    (∀ x ∈ live, ∀ y ∈ live, x ≠ y → get x m ≠ nullptr → get x m ≠ get y m))

/-- The non-empty handles that have been passed to a deleter so far, oldest first. -/
def released (m : Mem Deleter) : List pointer_type :=
  (m.calls.map Call.arg).filter (fun p => decide (p ≠ nullptr))

/-- The operations of a program on its wrappers, each on the wrappers at the given
addresses. -/
inductive Op where
  | move_construct (this ptr : Nat)
  | assign_move (this r : Nat)
  | swap (this ptr : Nat)
  | reset_empty (this : Nat)
  | assign_nullptr (this : Nat)
  | destroy (this : Nat)
deriving DecidableEq, Repr

/-- One operation of a program: the member function it names, run on the memory. -/
def step (op : Op) (m : Mem Deleter) : Mem Deleter :=
  match op with
  | Op.move_construct this ptr => unique_ptr_move this ptr m
  | Op.assign_move this r => operator_assign_move this r m
  | Op.swap this ptr => swap this ptr m
  | Op.reset_empty this => reset this nullptr m
  | Op.assign_nullptr this => operator_assign_nullptr this m
  | Op.destroy this => destructor this m

/-- A sequence of operations, run from left to right. -/
def run (ops : List Op) (m : Mem Deleter) : Mem Deleter :=
  match ops with
  | [] => m
  | op :: rest => run rest (step op m)

/-- The memory before any wrapper is constructed: no deleter has been called, and storage
in which no wrapper has been constructed holds no handle (it reads as the null pointer),
with `d0` for its deleter bytes. -/
def no_wrappers (d0 : Deleter) : Mem Deleter where
  obj := fun _ => ⟨d0, nullptr⟩
  calls := []

/-- The wrappers of `inits` constructed one after another, each entry `(a, H, d)` by
`unique_ptr(H, d)` at address `a`. -/
def construct_all (inits : List (Nat × pointer_type × Deleter)) (m : Mem Deleter) :
    Mem Deleter :=
  match inits with
  | [] => m
  | i :: rest => construct_all rest (unique_ptr_from_pointer_deleter i.1 i.2.1 i.2.2 m)

/-- The ownership invariant of a memory: no two wrappers hold the same non-empty handle, no
non-empty handle has been passed to a deleter twice, and no wrapper holds a handle that has
been passed to a deleter. -/
def owned_once (m : Mem Deleter) : Prop :=
  (∀ live : List Nat, exclusive live m) ∧
  (released m).Nodup ∧
  (∀ x, get x m ≠ nullptr → get x m ∉ released m)

/-! ## Sample memories -/

/-- A memory of wrappers with natural numbers as deleters: the wrapper at address `0` is
empty with deleter `10`, the wrapper at address `1` holds handle `100` with deleter `11`,
the wrapper at address `2` holds handle `200` with deleter `12`, every other wrapper is
empty with deleter `0`.  No deleter has been called. -/
def sampleMem : Mem Nat where
  obj := fun a =>
    if a = 0 then ⟨10, nullptr⟩
    else if a = 1 then ⟨11, 100⟩
    else if a = 2 then ⟨12, 200⟩
    else ⟨0, nullptr⟩
  calls := []

/-- Element storage holding the three elements `7, 8, 9` at the addresses `100, 101, 102`
and nothing elsewhere. -/
def sampleElems : Nat → Option Nat := fun q =>
  if q = 100 then some 7 else if q = 101 then some 8 else if q = 102 then some 9 else none

/-- A memory of array wrappers, all empty with deleter `0`; no deleter has been called. -/
def sampleArrayMem : ArrayMem Nat where
  obj := fun _ => ⟨nullptr, 0⟩
  calls := []

/-! ## Basic facts about the memory primitives -/

@[simp]
theorem get_set_pointer_same (this : Nat) (p : pointer_type) (m : Mem Deleter) :
    get this (set_pointer this p m) = p := by
  simp [get, set_pointer]

@[simp]
theorem get_set_pointer_other (this other : Nat) (p : pointer_type) (m : Mem Deleter)
    (h : other ≠ this) : get other (set_pointer this p m) = get other m := by
  simp [get, set_pointer, Function.update_noteq h]

@[simp]
theorem get_set_deleter (this other : Nat) (d : Deleter) (m : Mem Deleter) :
    get other (set_deleter this d m) = get other m := by
  by_cases h : other = this
  · subst h; simp [get, set_deleter]
  · simp [get, set_deleter, Function.update_noteq h]

@[simp]
theorem get_deleter_set_pointer (this other : Nat) (p : pointer_type) (m : Mem Deleter) :
    get_deleter other (set_pointer this p m) = get_deleter other m := by
  by_cases h : other = this
  · subst h; simp [get_deleter, set_pointer]
  · simp [get_deleter, set_pointer, Function.update_noteq h]

@[simp]
theorem get_deleter_set_deleter_same (this : Nat) (d : Deleter) (m : Mem Deleter) :
    get_deleter this (set_deleter this d m) = d := by
  simp [get_deleter, set_deleter]

@[simp]
theorem get_deleter_set_deleter_other (this other : Nat) (d : Deleter) (m : Mem Deleter)
    (h : other ≠ this) : get_deleter other (set_deleter this d m) = get_deleter other m := by
  simp [get_deleter, set_deleter, Function.update_noteq h]

@[simp]
theorem calls_set_pointer (this : Nat) (p : pointer_type) (m : Mem Deleter) :
    (set_pointer this p m).calls = m.calls := rfl

@[simp]
theorem calls_set_deleter (this : Nat) (d : Deleter) (m : Mem Deleter) :
    (set_deleter this d m).calls = m.calls := rfl

@[simp]
theorem calls_invoke (d : Deleter) (p : pointer_type) (m : Mem Deleter) :
    (invoke d p m).calls = m.calls ++ [⟨d, p⟩] := rfl

@[simp]
theorem get_invoke (this : Nat) (d : Deleter) (p : pointer_type) (m : Mem Deleter) :
    get this (invoke d p m) = get this m := rfl

@[simp]
theorem get_deleter_invoke (this : Nat) (d : Deleter) (p : pointer_type) (m : Mem Deleter) :
    get_deleter this (invoke d p m) = get_deleter this m := rfl

/-! ## Ownership-transfer construction -/

/-- C1: when `B` is constructed from a distinct wrapper `A` by ownership transfer, `A` is
left empty, `B` holds the handle `A` held (empty or not) and a deleter equal to the one
stored in `A`, and the trace of deleter calls is unchanged: no deleter is called. -/
theorem C1_move_construct (m : Mem Deleter) (a b : Nat) (hab : a ≠ b) :
    get a (unique_ptr_move b a m) = nullptr ∧
    get b (unique_ptr_move b a m) = get a m ∧
    get_deleter b (unique_ptr_move b a m) = get_deleter a m ∧
    get_deleter a (unique_ptr_move b a m) = get_deleter a m ∧
    (unique_ptr_move b a m).calls = m.calls := by
  simp [unique_ptr_move, release, hab, hab.symm]

/-- Witness of C1: the wrapper at address `1` of `sampleMem` moved into address `3`. -/
theorem C1_move_construct_witness :
    (1 : Nat) ≠ 3 ∧
    (get 1 (unique_ptr_move 3 1 sampleMem) = nullptr ∧
     get 3 (unique_ptr_move 3 1 sampleMem) = get 1 sampleMem ∧
     get_deleter 3 (unique_ptr_move 3 1 sampleMem) = get_deleter 1 sampleMem ∧
     get_deleter 1 (unique_ptr_move 3 1 sampleMem) = get_deleter 1 sampleMem ∧
     (unique_ptr_move 3 1 sampleMem).calls = sampleMem.calls) :=
  ⟨by decide, C1_move_construct sampleMem 1 3 (by decide)⟩

/-! ## reset -/

/-- C2: on a wrapper holding a non-empty handle `H`, `reset(p)` with `p` different from `H`
calls the deleter exactly once, a copy of the stored deleter, with argument `H`, and
afterwards `get()` is `p`; in particular `reset()`, that is `reset(nullptr)`, does so and
leaves the wrapper empty. -/
theorem C2_reset_releases_old_handle (m : Mem Deleter) (a : Nat) (p : pointer_type)
    (hH : get a m ≠ nullptr) (hp : p ≠ get a m) :
    (reset a p m).calls = m.calls ++ [⟨get_deleter a m, get a m⟩] ∧
    get a (reset a p m) = p ∧
    get_deleter a (reset a p m) = get_deleter a m ∧
    (reset a nullptr m).calls = m.calls ++ [⟨get_deleter a m, get a m⟩] ∧
    get a (reset a nullptr m) = nullptr := by
  have hn : nullptr ≠ get a m := fun h => hH h.symm
  simp [reset, hp, hn]

/-- Witness of C2: the wrapper at address `1` of `sampleMem`, holding `100`, reset to `300`. -/
theorem C2_reset_releases_old_handle_witness :
    get 1 sampleMem ≠ nullptr ∧ (300 : pointer_type) ≠ get 1 sampleMem ∧
    ((reset 1 300 sampleMem).calls
        = sampleMem.calls ++ [⟨get_deleter 1 sampleMem, get 1 sampleMem⟩] ∧
     get 1 (reset 1 300 sampleMem) = 300 ∧
     get_deleter 1 (reset 1 300 sampleMem) = get_deleter 1 sampleMem ∧
     (reset 1 nullptr sampleMem).calls
        = sampleMem.calls ++ [⟨get_deleter 1 sampleMem, get 1 sampleMem⟩] ∧
     get 1 (reset 1 nullptr sampleMem) = nullptr) :=
  ⟨by decide, by decide, C2_reset_releases_old_handle sampleMem 1 300 (by decide) (by decide)⟩

/-- C3: `reset(h)` with `h` the handle currently held, empty or not, leaves the whole
memory as it was: no deleter call is added to the trace, and the handle and the deleter of
the wrapper (and of every other wrapper) are unchanged. -/
theorem C3_reset_same_handle_noop (m : Mem Deleter) (a : Nat) :
    reset a (get a m) m = m := by
  simp [reset]

/-- C4 as stated fails: the wrapper at address `0` of `sampleMem` is empty and `5` is a
non-empty handle, yet `reset(5)` does not leave the trace of deleter calls unchanged. -/
theorem C4_counterexample :
    ¬ (get 0 sampleMem = nullptr → (5 : pointer_type) ≠ nullptr →
        get 0 (reset 0 5 sampleMem) = 5 ∧ (reset 0 5 sampleMem).calls = sampleMem.calls) := by
  decide

/-- C4 amended: on an empty wrapper, `reset(p)` with a non-empty handle `p` stores `p` and
calls the deleter exactly once, with the null pointer as argument; the stored deleter is
unchanged. -/
theorem C4_reset_on_empty (m : Mem Deleter) (a : Nat) (p : pointer_type)
    (hE : get a m = nullptr) (hp : p ≠ nullptr) :
    get a (reset a p m) = p ∧
    (reset a p m).calls = m.calls ++ [⟨get_deleter a m, nullptr⟩] ∧
    get_deleter a (reset a p m) = get_deleter a m := by
  simp [reset, hE, hp]

/-- Witness of C4 amended: the empty wrapper at address `0` of `sampleMem`, reset to `5`. -/
theorem C4_reset_on_empty_witness :
    get 0 sampleMem = nullptr ∧ (5 : pointer_type) ≠ nullptr ∧
    (get 0 (reset 0 5 sampleMem) = 5 ∧
     (reset 0 5 sampleMem).calls = sampleMem.calls ++ [⟨get_deleter 0 sampleMem, nullptr⟩] ∧
     get_deleter 0 (reset 0 5 sampleMem) = get_deleter 0 sampleMem) :=
  ⟨by decide, by decide, C4_reset_on_empty sampleMem 0 5 (by decide) (by decide)⟩

/-! ## release -/

/-- C5: on a wrapper holding a non-empty handle `H`, the first `release()` returns `H`
and leaves the wrapper empty, a second `release()` right after returns the null pointer,
the trace of deleter calls is the same after each of the two calls, and so is the stored
deleter. -/
theorem C5_release_twice (m : Mem Deleter) (a : Nat) (hH : get a m ≠ nullptr) :
    (release a m).1 = get a m ∧
    (release a m).1 ≠ nullptr ∧
    get a (release a m).2 = nullptr ∧
    (release a (release a m).2).1 = nullptr ∧
    get a (release a (release a m).2).2 = nullptr ∧
    (release a m).2.calls = m.calls ∧
    (release a (release a m).2).2.calls = m.calls ∧
    get_deleter a (release a m).2 = get_deleter a m ∧
    get_deleter a (release a (release a m).2).2 = get_deleter a m := by
  simp [release, hH]

/-- Witness of C5: the wrapper at address `1` of `sampleMem`, holding `100`. -/
theorem C5_release_twice_witness :
    get 1 sampleMem ≠ nullptr ∧
    ((release 1 sampleMem).1 = get 1 sampleMem ∧
     (release 1 sampleMem).1 ≠ nullptr ∧
     get 1 (release 1 sampleMem).2 = nullptr ∧
     (release 1 (release 1 sampleMem).2).1 = nullptr ∧
     get 1 (release 1 (release 1 sampleMem).2).2 = nullptr ∧
     (release 1 sampleMem).2.calls = sampleMem.calls ∧
     (release 1 (release 1 sampleMem).2).2.calls = sampleMem.calls ∧
     get_deleter 1 (release 1 sampleMem).2 = get_deleter 1 sampleMem ∧
     get_deleter 1 (release 1 (release 1 sampleMem).2).2 = get_deleter 1 sampleMem) :=
  ⟨by decide, C5_release_twice sampleMem 1 (by decide)⟩

/-! ## Ownership-transfer assignment -/

/-- C6: for distinct wrappers, destination `A` holding a non-empty handle `Ha` and source
`B` holding a handle `Hb` different from `Ha`, the assignment `A = std::move(B)` calls the
deleter exactly once, a copy of the deleter stored in `A`, with argument `Ha`, which is
not the null pointer; afterwards `A.get()` is `Hb` and `B` is empty. -/
theorem C6_move_assign_distinct (m : Mem Deleter) (a b : Nat) (hab : a ≠ b)
    (hHa : get a m ≠ nullptr) (hne : get b m ≠ get a m) :
    (operator_assign_move a b m).calls = m.calls ++ [⟨get_deleter a m, get a m⟩] ∧
    (∀ c ∈ (operator_assign_move a b m).calls, c ∈ m.calls ∨ c.arg ≠ nullptr) ∧
    get a (operator_assign_move a b m) = get b m ∧
    get b (operator_assign_move a b m) = nullptr := by
  have hc : (operator_assign_move a b m).calls = m.calls ++ [⟨get_deleter a m, get a m⟩] := by
    simp [operator_assign_move, release, reset, hab, hab.symm, hne]
  refine ⟨hc, ?_, ?_, ?_⟩
  · intro c hmem
    rw [hc, List.mem_append, List.mem_singleton] at hmem
    rcases hmem with h | h
    · exact Or.inl h
    · exact Or.inr (by rw [h]; exact hHa)
  · simp [operator_assign_move, release, reset, hab, hab.symm, hne]
  · simp [operator_assign_move, release, reset, hab, hab.symm, hne]

/-- Witness of C6: in `sampleMem` the wrapper at address `1`, holding `100`, is assigned
from the wrapper at address `2`, holding `200`. -/
theorem C6_move_assign_distinct_witness :
    (1 : Nat) ≠ 2 ∧ get 1 sampleMem ≠ nullptr ∧ get 2 sampleMem ≠ get 1 sampleMem ∧
    ((operator_assign_move 1 2 sampleMem).calls
        = sampleMem.calls ++ [⟨get_deleter 1 sampleMem, get 1 sampleMem⟩] ∧
     (∀ c ∈ (operator_assign_move 1 2 sampleMem).calls,
        c ∈ sampleMem.calls ∨ c.arg ≠ nullptr) ∧
     get 1 (operator_assign_move 1 2 sampleMem) = get 2 sampleMem ∧
     get 2 (operator_assign_move 1 2 sampleMem) = nullptr) :=
  ⟨by decide, by decide, by decide,
   C6_move_assign_distinct sampleMem 1 2 (by decide) (by decide) (by decide)⟩

/-- C7: the self assignment `A = std::move(A)` of a wrapper holding `H`, empty or not,
leaves `A.get()` equal to `H` and the stored deleter as it was, and every deleter call it
adds to the trace has an argument different from `H`. -/
theorem C7_self_move_assign (m : Mem Deleter) (a : Nat) :
    get a (operator_assign_move a a m) = get a m ∧
    get_deleter a (operator_assign_move a a m) = get_deleter a m ∧
    ∃ added : List (Call Deleter),
      (operator_assign_move a a m).calls = m.calls ++ added ∧
      ∀ c ∈ added, c.arg ≠ get a m := by
  by_cases h : get a m = nullptr
  · refine ⟨?_, ?_, [], ?_, ?_⟩ <;> simp [operator_assign_move, release, reset, h]
  · refine ⟨?_, ?_, [⟨get_deleter a m, nullptr⟩], ?_, ?_⟩
    · simp [operator_assign_move, release, reset, h]
    · simp [operator_assign_move, release, reset, h]
    · simp [operator_assign_move, release, reset, h]
    · intro c hc
      simp only [List.mem_singleton] at hc
      subst hc
      exact fun e => h e.symm

/-- C8 fails on the code: in `sampleMem` the wrappers at addresses `1` and `2` are distinct
and store the deleters `11` and `12` by value; after `A = std::move(B)` with `A` at `1` and
`B` at `2` the handle has moved to `A`, but `A` still stores its own deleter `11`, not
the deleter `12` of `B`. -/
theorem C8_move_assign_keeps_destination_deleter :
    get_deleter 1 sampleMem = 11 ∧ get_deleter 2 sampleMem = 12 ∧
    get 1 (operator_assign_move 1 2 sampleMem) = 200 ∧
    get_deleter 1 (operator_assign_move 1 2 sampleMem) = 11 ∧
    get_deleter 1 (operator_assign_move 1 2 sampleMem) ≠ get_deleter 2 sampleMem := by
  decide

/-! ## Destruction -/

/-- C9: `A` is constructed over a non-empty handle `H` with deleter `d`, `B` is constructed
from `A` by ownership transfer, then both are destroyed.  In either order of destruction
the trace gains exactly one deleter call in total, `d(H)`; destroying the moved-from `A`
adds no call, whether it is destroyed first or last. -/
theorem C9_move_construct_then_destroy_both (m0 : Mem Deleter) (a b : Nat)
    (H : pointer_type) (d : Deleter) (hab : a ≠ b) (hH : H ≠ nullptr) :
    (unique_ptr_move b a (unique_ptr_from_pointer_deleter a H d m0)).calls = m0.calls ∧
    (destructor b (destructor a
        (unique_ptr_move b a (unique_ptr_from_pointer_deleter a H d m0)))).calls
      = m0.calls ++ [⟨d, H⟩] ∧
    (destructor a (destructor b
        (unique_ptr_move b a (unique_ptr_from_pointer_deleter a H d m0)))).calls
      = m0.calls ++ [⟨d, H⟩] ∧
    (destructor a (unique_ptr_move b a (unique_ptr_from_pointer_deleter a H d m0))).calls
      = (unique_ptr_move b a (unique_ptr_from_pointer_deleter a H d m0)).calls ∧
    (destructor a (destructor b
        (unique_ptr_move b a (unique_ptr_from_pointer_deleter a H d m0)))).calls
      = (destructor b
        (unique_ptr_move b a (unique_ptr_from_pointer_deleter a H d m0))).calls := by
  have hn : nullptr ≠ H := fun h => hH h.symm
  simp [destructor, reset, unique_ptr_move, unique_ptr_from_pointer_deleter, release,
    hab, hab.symm, hn]

/-- Witness of C9: `A` at address `3` over handle `300` with deleter `13`, `B` at
address `4`. -/
theorem C9_move_construct_then_destroy_both_witness :
    (3 : Nat) ≠ 4 ∧ (300 : pointer_type) ≠ nullptr ∧
    ((unique_ptr_move 4 3 (unique_ptr_from_pointer_deleter 3 300 13 sampleMem)).calls
      = sampleMem.calls ∧
    (destructor 4 (destructor 3
        (unique_ptr_move 4 3 (unique_ptr_from_pointer_deleter 3 300 13 sampleMem)))).calls
      = sampleMem.calls ++ [⟨13, 300⟩] ∧
    (destructor 3 (destructor 4
        (unique_ptr_move 4 3 (unique_ptr_from_pointer_deleter 3 300 13 sampleMem)))).calls
      = sampleMem.calls ++ [⟨13, 300⟩] ∧
    (destructor 3
        (unique_ptr_move 4 3 (unique_ptr_from_pointer_deleter 3 300 13 sampleMem))).calls
      = (unique_ptr_move 4 3 (unique_ptr_from_pointer_deleter 3 300 13 sampleMem)).calls ∧
    (destructor 3 (destructor 4
        (unique_ptr_move 4 3 (unique_ptr_from_pointer_deleter 3 300 13 sampleMem)))).calls
      = (destructor 4
        (unique_ptr_move 4 3 (unique_ptr_from_pointer_deleter 3 300 13 sampleMem))).calls) :=
  ⟨by decide, by decide,
   C9_move_construct_then_destroy_both sampleMem 3 4 300 13 (by decide) (by decide)⟩

/-- C10: a wrapper constructed by `unique_ptr(H)` over a non-empty handle `H` and then
destroyed: the constructor adds no deleter call, the destructor adds exactly one, the
default-constructed deleter called on `H`, and leaves the handle null; and on every memory
the destructor yields the memory that `reset()` with the null pointer yields, so the handle
and the trace of deleter calls agree. -/
theorem C10_construct_then_destroy [Inhabited Deleter] (m0 : Mem Deleter) (a : Nat)
    (H : pointer_type) (hH : H ≠ nullptr) :
    get a (unique_ptr_from_pointer a H m0) = H ∧
    (unique_ptr_from_pointer a H m0).calls = m0.calls ∧
    (destructor a (unique_ptr_from_pointer a H m0)).calls = m0.calls ++ [⟨default, H⟩] ∧
    get a (destructor a (unique_ptr_from_pointer a H m0)) = nullptr ∧
    (∀ (m : Mem Deleter) (c : Nat), destructor c m = reset c nullptr m) := by
  have hn : nullptr ≠ H := fun h => hH h.symm
  refine ⟨?_, ?_, ?_, ?_, fun _ _ => rfl⟩ <;>
    simp [destructor, reset, unique_ptr_from_pointer, hn]

/-- Witness of C10: a wrapper constructed at address `3` of `sampleMem` over handle `300`. -/
theorem C10_construct_then_destroy_witness :
    (300 : pointer_type) ≠ nullptr ∧
    (get 3 (unique_ptr_from_pointer 3 300 sampleMem) = 300 ∧
     (unique_ptr_from_pointer 3 300 sampleMem).calls = sampleMem.calls ∧
     (destructor 3 (unique_ptr_from_pointer 3 300 sampleMem)).calls
        = sampleMem.calls ++ [⟨default, 300⟩] ∧
     get 3 (destructor 3 (unique_ptr_from_pointer 3 300 sampleMem)) = nullptr ∧
     (∀ (m : Mem Nat) (c : Nat), destructor c m = reset c nullptr m)) :=
  ⟨by decide, C10_construct_then_destroy sampleMem 3 300 (by decide)⟩

/-! ## Shared lemmas: equality of memories, swap, reset -/

theorem Mem.eq_of (m1 m2 : Mem Deleter) (hobj : ∀ x, m1.obj x = m2.obj x)
    (hcalls : m1.calls = m2.calls) : m1 = m2 := by
  cases m1
  cases m2
  simp only [Mem.mk.injEq]
  exact ⟨funext hobj, hcalls⟩

theorem obj_swap (a b x : Nat) (m : Mem Deleter) :
    (swap a b m).obj x = m.obj (Equiv.swap a b x) := by
  by_cases hxa : x = a
  · subst hxa
    by_cases hab : x = b
    · subst hab
      simp [swap, set_pointer, set_deleter, get, get_deleter]
    · have hba : ¬ b = x := fun h => hab h.symm
      simp [swap, set_pointer, set_deleter, get, get_deleter, Function.update, hab, hba]
  · by_cases hxb : x = b
    · subst hxb
      have hax : ¬ a = x := fun h => hxa h.symm
      simp [swap, set_pointer, set_deleter, get, get_deleter, Function.update, hxa, hax]
    · rw [Equiv.swap_apply_of_ne_of_ne hxa hxb]
      simp [swap, set_pointer, set_deleter, get, get_deleter, Function.update, hxa, hxb]

@[simp]
theorem calls_swap (a b : Nat) (m : Mem Deleter) : (swap a b m).calls = m.calls := rfl

theorem get_swap (a b x : Nat) (m : Mem Deleter) :
    get x (swap a b m) = get (Equiv.swap a b x) m := by
  simp [get, obj_swap]

theorem get_deleter_swap (a b x : Nat) (m : Mem Deleter) :
    get_deleter x (swap a b m) = get_deleter (Equiv.swap a b x) m := by
  simp [get_deleter, obj_swap]

theorem reset_of_eq (a : Nat) (p : pointer_type) (m : Mem Deleter) (h : p = get a m) :
    reset a p m = m := by
  simp [reset, h]

/-! ## Deleter propagation, swap, boolean conversion, empty wrappers -/

/-- C11: a wrapper constructed by `unique_ptr(H, d)` over a non-empty handle `H` with an
explicit deleter `d` stores `d`: `get_deleter()` returns `d`, and the one deleter call that
`reset()` or the destructor makes on `H` is made on a deleter equal to `d`; when `d` differs
from a default-constructed deleter, that call is not a call of a default-constructed one. -/
theorem C11_explicit_deleter_is_used [Inhabited Deleter] (m0 : Mem Deleter) (a : Nat)
    (H : pointer_type) (d : Deleter) (hH : H ≠ nullptr) :
    get_deleter a (unique_ptr_from_pointer_deleter a H d m0) = d ∧
    get a (unique_ptr_from_pointer_deleter a H d m0) = H ∧
    (unique_ptr_from_pointer_deleter a H d m0).calls = m0.calls ∧
    (reset a nullptr (unique_ptr_from_pointer_deleter a H d m0)).calls
      = m0.calls ++ [⟨d, H⟩] ∧
    (destructor a (unique_ptr_from_pointer_deleter a H d m0)).calls
      = m0.calls ++ [⟨d, H⟩] ∧
    (d ≠ default →
      (reset a nullptr (unique_ptr_from_pointer_deleter a H d m0)).calls
        ≠ m0.calls ++ [⟨default, H⟩] ∧
      (destructor a (unique_ptr_from_pointer_deleter a H d m0)).calls
        ≠ m0.calls ++ [⟨default, H⟩]) := by
  have hn : nullptr ≠ H := fun h => hH h.symm
  have hr : (reset a nullptr (unique_ptr_from_pointer_deleter a H d m0)).calls
      = m0.calls ++ [⟨d, H⟩] := by
    simp [reset, unique_ptr_from_pointer_deleter, hn]
  refine ⟨?_, ?_, ?_, hr, hr, ?_⟩
  · simp [unique_ptr_from_pointer_deleter]
  · simp [unique_ptr_from_pointer_deleter]
  · simp [unique_ptr_from_pointer_deleter]
  · intro hd
    have key : m0.calls ++ [(⟨d, H⟩ : Call Deleter)] ≠ m0.calls ++ [⟨default, H⟩] := by
      intro h
      have h1 := List.append_cancel_left h
      simp only [List.cons.injEq, Call.mk.injEq, and_true] at h1
      exact hd h1
    refine ⟨?_, ?_⟩
    · rw [hr]; exact key
    · show (reset a nullptr (unique_ptr_from_pointer_deleter a H d m0)).calls ≠ _
      rw [hr]; exact key

/-- Witness of C11: a wrapper constructed at address `3` of `sampleMem` over handle `300`
with deleter `13`; the default-constructed deleter is `0`. -/
theorem C11_explicit_deleter_is_used_witness :
    (300 : pointer_type) ≠ nullptr ∧
    (get_deleter 3 (unique_ptr_from_pointer_deleter 3 300 13 sampleMem) = 13 ∧
     get 3 (unique_ptr_from_pointer_deleter 3 300 13 sampleMem) = 300 ∧
     (unique_ptr_from_pointer_deleter 3 300 13 sampleMem).calls = sampleMem.calls ∧
     (reset 3 nullptr (unique_ptr_from_pointer_deleter 3 300 13 sampleMem)).calls
       = sampleMem.calls ++ [⟨13, 300⟩] ∧
     (destructor 3 (unique_ptr_from_pointer_deleter 3 300 13 sampleMem)).calls
       = sampleMem.calls ++ [⟨13, 300⟩] ∧
     ((13 : Nat) ≠ default →
       (reset 3 nullptr (unique_ptr_from_pointer_deleter 3 300 13 sampleMem)).calls
         ≠ sampleMem.calls ++ [⟨default, 300⟩] ∧
       (destructor 3 (unique_ptr_from_pointer_deleter 3 300 13 sampleMem)).calls
         ≠ sampleMem.calls ++ [⟨default, 300⟩])) :=
  ⟨by decide, C11_explicit_deleter_is_used sampleMem 3 300 13 (by decide)⟩

/-- C12: for wrappers `A = (Ha, da)` and `B = (Hb, db)`, `A.swap(B)` leaves `A = (Hb, db)`
and `B = (Ha, da)`, leaves every other wrapper as it was, and leaves the trace of deleter
calls unchanged: no deleter is called. -/
theorem C12_swap_exchanges (m : Mem Deleter) (a b : Nat) :
    get a (swap a b m) = get b m ∧
    get_deleter a (swap a b m) = get_deleter b m ∧
    get b (swap a b m) = get a m ∧
    get_deleter b (swap a b m) = get_deleter a m ∧
    (swap a b m).calls = m.calls ∧
    (∀ c, c ≠ a → c ≠ b → (swap a b m).obj c = m.obj c) := by
  refine ⟨?_, ?_, ?_, ?_, rfl, ?_⟩
  · rw [get_swap, Equiv.swap_apply_left]
  · rw [get_deleter_swap, Equiv.swap_apply_left]
  · rw [get_swap, Equiv.swap_apply_right]
  · rw [get_deleter_swap, Equiv.swap_apply_right]
  · intro c hca hcb
    rw [obj_swap, Equiv.swap_apply_of_ne_of_ne hca hcb]

/-- C15: the conversion to `bool` yields `true` exactly when `get()` is not the null
pointer, and `false` exactly when it is.  Both `operator bool` and `get` are `const` members
whose bodies only read `m_pointer`: they are functions of the memory that return a value and
no memory, so they write no object and add no deleter call. -/
theorem C15_bool_iff_nonempty (m : Mem Deleter) (a : Nat) :
    (operator_bool a m = true ↔ get a m ≠ nullptr) ∧
    (operator_bool a m = false ↔ get a m = nullptr) := by
  simp [operator_bool]

/-- C18: on an empty wrapper, `reset()` with no argument, assignment of the null pointer
and destruction each return the memory as it was: no deleter call is added and the wrapper
stays empty.  A default-constructed wrapper, a wrapper constructed from the null pointer, a
released wrapper and a moved-from wrapper are empty. -/
theorem C18_empty_wrapper_noops [Inhabited Deleter] (m0 m : Mem Deleter) (a b : Nat)
    (hab : a ≠ b) (hE : get a m = nullptr) :
    reset a nullptr m = m ∧
    operator_assign_nullptr a m = m ∧
    destructor a m = m ∧
    get a (unique_ptr_default a m0) = nullptr ∧
    get a (unique_ptr_from_pointer a nullptr m0) = nullptr ∧
    get a (release a m0).2 = nullptr ∧
    get a (unique_ptr_move b a m0) = nullptr := by
  refine ⟨reset_of_eq a nullptr m hE.symm, reset_of_eq a nullptr m hE.symm,
    reset_of_eq a nullptr m hE.symm, ?_, ?_, ?_, ?_⟩
  · simp [unique_ptr_default]
  · simp [unique_ptr_from_pointer]
  · simp [release]
  · simp [unique_ptr_move, release, hab, hab.symm]

/-- Witness of C18: the wrapper at address `1` of `sampleMem` once it has been moved from,
into a wrapper at address `3`. -/
theorem C18_empty_wrapper_noops_witness :
    (1 : Nat) ≠ 3 ∧ get 1 (unique_ptr_move 3 1 sampleMem) = nullptr ∧
    (reset 1 nullptr (unique_ptr_move 3 1 sampleMem) = unique_ptr_move 3 1 sampleMem ∧
     operator_assign_nullptr 1 (unique_ptr_move 3 1 sampleMem)
       = unique_ptr_move 3 1 sampleMem ∧
     destructor 1 (unique_ptr_move 3 1 sampleMem) = unique_ptr_move 3 1 sampleMem ∧
     get 1 (unique_ptr_default 1 sampleMem) = nullptr ∧
     get 1 (unique_ptr_from_pointer 1 nullptr sampleMem) = nullptr ∧
     get 1 (release 1 sampleMem).2 = nullptr ∧
     get 1 (unique_ptr_move 3 1 sampleMem) = nullptr) :=
  ⟨by decide, by decide,
   C18_empty_wrapper_noops sampleMem (unique_ptr_move 3 1 sampleMem) 1 3
     (by decide) (by decide)⟩

/-- C19: `A.swap(B)` performed twice in succession gives back the memory it started from,
so both wrappers have their original handle and deleter; and `A.swap(B)` gives the same
memory as `B.swap(A)`. -/
theorem C19_swap_involutive_symmetric (m : Mem Deleter) (a b : Nat) :
    swap a b (swap a b m) = m ∧ swap a b m = swap b a m := by
  constructor
  · apply Mem.eq_of
    · intro x
      rw [obj_swap, obj_swap, Equiv.swap_apply_self]
    · rfl
  · apply Mem.eq_of
    · intro x
      rw [obj_swap, obj_swap, Equiv.swap_comm]
    · rfl

/-! ## The array wrapper against the scalar wrapper -/

theorem set_pointer_set_deleter_comm (a b : Nat) (p : pointer_type) (d : Deleter)
    (m : Mem Deleter) :
    set_pointer a p (set_deleter b d m) = set_deleter b d (set_pointer a p m) := by
  apply Mem.eq_of
  · intro x
    by_cases hab : a = b
    · subst hab
      by_cases hx : x = a
      · subst hx; simp [set_pointer, set_deleter]
      · simp [set_pointer, set_deleter, Function.update, hx]
    · have hba : ¬ b = a := fun h => hab h.symm
      by_cases hxa : x = a
      · subst hxa; simp [set_pointer, set_deleter, Function.update, hab, hba]
      · by_cases hxb : x = b
        · subst hxb; simp [set_pointer, set_deleter, Function.update, hab, hba]
        · simp [set_pointer, set_deleter, Function.update, hxa, hxb]
  · rfl

theorem toScalar_set_pointer (a : Nat) (p : pointer_type) (m : ArrayMem Deleter) :
    (unique_ptr_array.set_pointer a p m).toScalar = set_pointer a p m.toScalar := by
  apply Mem.eq_of
  · intro x
    by_cases hx : x = a
    · subst hx; simp [unique_ptr_array.set_pointer, set_pointer, ArrayMem.toScalar]
    · simp [unique_ptr_array.set_pointer, set_pointer, ArrayMem.toScalar,
        Function.update, hx]
  · rfl

theorem toScalar_set_deleter (a : Nat) (d : Deleter) (m : ArrayMem Deleter) :
    (unique_ptr_array.set_deleter a d m).toScalar = set_deleter a d m.toScalar := by
  apply Mem.eq_of
  · intro x
    by_cases hx : x = a
    · subst hx; simp [unique_ptr_array.set_deleter, set_deleter, ArrayMem.toScalar]
    · simp [unique_ptr_array.set_deleter, set_deleter, ArrayMem.toScalar,
        Function.update, hx]
  · rfl

theorem toScalar_invoke (d : Deleter) (p : pointer_type) (m : ArrayMem Deleter) :
    (unique_ptr_array.invoke d p m).toScalar = invoke d p m.toScalar := rfl

theorem get_toScalar (a : Nat) (m : ArrayMem Deleter) :
    get a m.toScalar = unique_ptr_array.get a m := rfl

theorem get_deleter_toScalar (a : Nat) (m : ArrayMem Deleter) :
    get_deleter a m.toScalar = unique_ptr_array.get_deleter a m := rfl

theorem toScalar_reset (a : Nat) (p : pointer_type) (m : ArrayMem Deleter) :
    (unique_ptr_array.reset a p m).toScalar = reset a p m.toScalar := by
  unfold unique_ptr_array.reset reset
  rw [get_toScalar, get_deleter_toScalar]
  by_cases h : p = unique_ptr_array.get a m
  · simp [h]
  · simp [h, toScalar_set_pointer, toScalar_invoke]

theorem toScalar_release (a : Nat) (m : ArrayMem Deleter) :
    (unique_ptr_array.release a m).2.toScalar = (release a m.toScalar).2 := by
  simp [unique_ptr_array.release, release, toScalar_set_pointer]

theorem toScalar_operator_assign_move (a b : Nat) (m : ArrayMem Deleter) :
    (unique_ptr_array.operator_assign_move a b m).toScalar
      = operator_assign_move a b m.toScalar := by
  simp only [unique_ptr_array.operator_assign_move, operator_assign_move,
    unique_ptr_array.release, release, toScalar_reset, toScalar_set_pointer, get_toScalar]

theorem toScalar_unique_ptr_move (a b : Nat) (m : ArrayMem Deleter) :
    (unique_ptr_array.unique_ptr_move a b m).toScalar = unique_ptr_move a b m.toScalar := by
  simp only [unique_ptr_array.unique_ptr_move, unique_ptr_move, unique_ptr_array.release,
    release, toScalar_set_deleter, toScalar_set_pointer, ← get_toScalar,
    ← get_deleter_toScalar, get_deleter_set_pointer, get_set_deleter,
    set_pointer_set_deleter_comm]

theorem toScalar_swap (a b : Nat) (m : ArrayMem Deleter) :
    (unique_ptr_array.swap a b m).toScalar = swap a b m.toScalar := by
  simp only [unique_ptr_array.swap, swap, toScalar_set_deleter, toScalar_set_pointer,
    ← get_toScalar, ← get_deleter_toScalar]

/-- C16: the array wrapper and the scalar wrapper agree on their shared operations.  Under
the correspondence `ArrayMem.toScalar` (same handle and same deleter at every address, same
trace of deleter calls), which reaches every scalar memory, each constructor, the move
constructor, the move assignment, the assignment of the null pointer, `release`, `reset`,
`swap` and the destructor of the array wrapper yield the memory that the scalar operation
yields, so the resulting states and the sequences of deleter calls are the same; and `get`,
`get_deleter` and `release` return the same values. -/
theorem C16_array_refines_scalar [Inhabited Deleter] (m : ArrayMem Deleter) (a b : Nat)
    (p : pointer_type) (d : Deleter) :
    (unique_ptr_array.unique_ptr_default a m).toScalar = unique_ptr_default a m.toScalar ∧
    (unique_ptr_array.unique_ptr_from_pointer a p m).toScalar
      = unique_ptr_from_pointer a p m.toScalar ∧
    (unique_ptr_array.unique_ptr_from_pointer_deleter a p d m).toScalar
      = unique_ptr_from_pointer_deleter a p d m.toScalar ∧
    (unique_ptr_array.unique_ptr_move a b m).toScalar = unique_ptr_move a b m.toScalar ∧
    (unique_ptr_array.operator_assign_move a b m).toScalar
      = operator_assign_move a b m.toScalar ∧
    (unique_ptr_array.operator_assign_nullptr a m).toScalar
      = operator_assign_nullptr a m.toScalar ∧
    unique_ptr_array.get a m = get a m.toScalar ∧
    unique_ptr_array.get_deleter a m = get_deleter a m.toScalar ∧
    (unique_ptr_array.release a m).1 = (release a m.toScalar).1 ∧
    (unique_ptr_array.release a m).2.toScalar = (release a m.toScalar).2 ∧
    (unique_ptr_array.reset a p m).toScalar = reset a p m.toScalar ∧
    (unique_ptr_array.swap a b m).toScalar = swap a b m.toScalar ∧
    (unique_ptr_array.destructor a m).toScalar = destructor a m.toScalar ∧
    (∀ (m1 m2 : ArrayMem Deleter), m1.toScalar = m2.toScalar → m1 = m2) ∧
    (∀ ms : Mem Deleter, ∃ ma : ArrayMem Deleter, ma.toScalar = ms) := by
  refine ⟨?_, ?_, ?_, toScalar_unique_ptr_move a b m, toScalar_operator_assign_move a b m,
    toScalar_reset a nullptr m, rfl, rfl, rfl, toScalar_release a m, toScalar_reset a p m,
    toScalar_swap a b m, toScalar_reset a nullptr m, ?_, ?_⟩
  · simp only [unique_ptr_array.unique_ptr_default, unique_ptr_default,
      toScalar_set_deleter, toScalar_set_pointer, set_pointer_set_deleter_comm]
  · simp only [unique_ptr_array.unique_ptr_from_pointer, unique_ptr_from_pointer,
      toScalar_set_deleter, toScalar_set_pointer, set_pointer_set_deleter_comm]
  · simp only [unique_ptr_array.unique_ptr_from_pointer_deleter,
      unique_ptr_from_pointer_deleter, toScalar_set_deleter, toScalar_set_pointer,
      set_pointer_set_deleter_comm]
  · intro m1 m2 h
    cases m1 with
    | mk o1 c1 =>
      cases m2 with
      | mk o2 c2 =>
        simp only [ArrayMem.toScalar, Mem.mk.injEq] at h
        obtain ⟨ho, hc⟩ := h
        have hobj : o1 = o2 := by
          funext x
          have hx := congrFun ho x
          simp only [unique_ptr.mk.injEq] at hx
          cases h1 : o1 x
          cases h2 : o2 x
          rw [h1, h2] at hx
          simp only [unique_ptr_array.mk.injEq]
          exact ⟨hx.2, hx.1⟩
        rw [hobj, hc]
  · intro ms
    exact ⟨⟨fun x => ⟨(ms.obj x).m_pointer, (ms.obj x).m_deleter⟩, ms.calls⟩, rfl⟩

/-- C17: an array wrapper is constructed by `unique_ptr(p)` over a non-null handle `p` at
which the elements `xs` are stored.  For every index `i` below the number of elements,
`operator[](i)` returns element `i` of `xs`; it is a `const` member that only reads, a
function of the memory that returns no memory.  The constructor calls no deleter and the
destructor adds exactly one deleter call, on `p`. -/
theorem C17_array_index_and_destroy [Inhabited Deleter] {T : Type} (elems : Nat → Option T)
    (m0 : ArrayMem Deleter) (a : Nat) (p : pointer_type) (xs : List T) (i : Nat)
    (hp : p ≠ nullptr) (hst : stores elems p xs) (hi : i < xs.length) :
    unique_ptr_array.operator_index elems a i
        (unique_ptr_array.unique_ptr_from_pointer a p m0) = some xs[i] ∧
    unique_ptr_array.get a (unique_ptr_array.unique_ptr_from_pointer a p m0) = p ∧
    (unique_ptr_array.unique_ptr_from_pointer a p m0).calls = m0.calls ∧
    (unique_ptr_array.destructor a (unique_ptr_array.unique_ptr_from_pointer a p m0)).calls
      = m0.calls ++ [⟨default, p⟩] := by
  have hget : unique_ptr_array.get a (unique_ptr_array.unique_ptr_from_pointer a p m0) = p := by
    simp [unique_ptr_array.get, unique_ptr_array.unique_ptr_from_pointer,
      unique_ptr_array.set_pointer, unique_ptr_array.set_deleter]
  have hdel : unique_ptr_array.get_deleter a
      (unique_ptr_array.unique_ptr_from_pointer a p m0) = default := by
    simp [unique_ptr_array.get_deleter, unique_ptr_array.unique_ptr_from_pointer,
      unique_ptr_array.set_pointer, unique_ptr_array.set_deleter]
  have hn : nullptr ≠ p := fun h => hp h.symm
  refine ⟨?_, hget, rfl, ?_⟩
  · unfold unique_ptr_array.operator_index
    rw [hget, hst i hi]
    exact List.getElem?_eq_getElem hi
  · unfold unique_ptr_array.destructor unique_ptr_array.reset
    rw [hget, hdel]
    simp only [ne_eq, hn, not_false_eq_true, if_true]
    rfl

/-- Witness of C17: an array wrapper constructed at address `3` over the handle `100`, where
`sampleElems` stores the three elements `7, 8, 9`; index `2`. -/
theorem C17_array_index_and_destroy_witness :
    (100 : pointer_type) ≠ nullptr ∧ stores sampleElems 100 [7, 8, 9] ∧
    (2 : Nat) < [7, 8, 9].length ∧
    (unique_ptr_array.operator_index sampleElems 3 2
        (unique_ptr_array.unique_ptr_from_pointer 3 100 sampleArrayMem) = some 9 ∧
     unique_ptr_array.get 3 (unique_ptr_array.unique_ptr_from_pointer 3 100 sampleArrayMem)
        = 100 ∧
     (unique_ptr_array.unique_ptr_from_pointer 3 100 sampleArrayMem).calls
        = sampleArrayMem.calls ∧
     (unique_ptr_array.destructor 3
        (unique_ptr_array.unique_ptr_from_pointer 3 100 sampleArrayMem)).calls
        = sampleArrayMem.calls ++ [⟨default, 100⟩]) :=
  ⟨by decide, by decide, by decide,
   C17_array_index_and_destroy sampleElems sampleArrayMem 3 100 [7, 8, 9] 2
     (by decide) (by decide) (by decide)⟩

/-! ## Handles and deleter calls after each operation -/

theorem get_set_pointer (a x : Nat) (p : pointer_type) (m : Mem Deleter) :
    get x (set_pointer a p m) = if x = a then p else get x m := by
  by_cases h : x = a
  · subst h; simp
  · simp [h]

theorem get_reset (a x : Nat) (p : pointer_type) (m : Mem Deleter) :
    get x (reset a p m) = if x = a then p else get x m := by
  unfold reset
  by_cases hp : p = get a m
  · by_cases h : x = a
    · subst h; simp [hp]
    · simp [hp, h]
  · by_cases h : x = a
    · subst h; simp [hp]
    · simp [hp, h]

theorem calls_reset (a : Nat) (p : pointer_type) (m : Mem Deleter) :
    (reset a p m).calls
      = if p = get a m then m.calls else m.calls ++ [⟨get_deleter a m, get a m⟩] := by
  unfold reset
  by_cases hp : p = get a m
  · simp [hp]
  · simp [hp]

theorem get_release (a x : Nat) (m : Mem Deleter) :
    get x (release a m).2 = if x = a then nullptr else get x m := by
  simp [release, get_set_pointer]

theorem get_unique_ptr_move (c a x : Nat) (m : Mem Deleter) :
    get x (unique_ptr_move c a m)
      = if x = c then get a m else if x = a then nullptr else get x m := by
  simp [unique_ptr_move, release, get_set_pointer]

theorem calls_unique_ptr_move (c a : Nat) (m : Mem Deleter) :
    (unique_ptr_move c a m).calls = m.calls := rfl

theorem get_operator_assign_move (a b x : Nat) (m : Mem Deleter) :
    get x (operator_assign_move a b m)
      = if x = a then get b m else if x = b then nullptr else get x m := by
  simp [operator_assign_move, release, get_reset, get_set_pointer]

theorem released_invoke (d : Deleter) (p : pointer_type) (m : Mem Deleter) :
    released (invoke d p m) = released m ++ (if p = nullptr then [] else [p]) := by
  by_cases h : p = nullptr
  · simp [released, invoke, h]
  · simp [released, invoke, h]

theorem released_reset (a : Nat) (p : pointer_type) (m : Mem Deleter) :
    released (reset a p m)
      = if p = get a m then released m
        else released m ++ (if get a m = nullptr then [] else [get a m]) := by
  unfold reset
  by_cases hp : p = get a m
  · simp [hp]
  · simp only [ne_eq, hp, not_false_eq_true, if_true, if_false]
    exact released_invoke _ _ _

/-! ## Exclusivity of handles -/

theorem exclusive_mono (l1 l2 : List Nat) (m : Mem Deleter) (hex : exclusive l2 m)
    (hsub : ∀ x ∈ l1, x ∈ l2) : exclusive l1 m :=
  fun x hx y hy hxy hnz => hex x (hsub x hx) y (hsub y hy) hxy hnz

/-- Exclusivity after a handle moves from the wrapper at `a` to the wrapper at `c`. -/
theorem exclusive_transfer (live : List Nat) (m m1 : Mem Deleter) (c a : Nat)
    (hex : exclusive live m) (ha : a ∈ live)
    (hget : ∀ x, get x m1 = if x = c then get a m else if x = a then nullptr else get x m) :
    exclusive (c :: live) m1 := by
  intro x hx y hy hxy hnz
  rw [hget x] at hnz
  rw [hget x, hget y]
  by_cases hxc : x = c
  · have hyc : ¬ y = c := fun h => hxy (hxc.trans h.symm)
    have hyl : y ∈ live := by
      rcases List.mem_cons.mp hy with h | h
      · exact absurd h hyc
      · exact h
    simp only [hxc, if_true] at hnz
    simp only [hxc, if_true, hyc, if_false]
    by_cases hya : y = a
    · simpa [hya] using hnz
    · simp only [hya, if_false]
      exact hex a ha y hyl (fun h => hya h.symm) hnz
  · have hxl : x ∈ live := by
      rcases List.mem_cons.mp hx with h | h
      · exact absurd h hxc
      · exact h
    simp only [hxc, if_false] at hnz ⊢
    by_cases hxa : x = a
    · simp [hxa] at hnz
    · simp only [hxa, if_false] at hnz ⊢
      by_cases hyc : y = c
      · simp only [hyc, if_true]
        by_cases hz : get a m = nullptr
        · rw [hz]; exact hnz
        · exact fun h => hex a ha x hxl (fun e => hxa e.symm) hz h.symm
      · have hyl : y ∈ live := by
          rcases List.mem_cons.mp hy with h | h
          · exact absurd h hyc
          · exact h
        simp only [hyc, if_false]
        by_cases hya : y = a
        · simpa [hya] using hnz
        · simp only [hya, if_false]
          exact hex x hxl y hyl hxy hnz

/-- Exclusivity after the wrapper at `a` is emptied. -/
theorem exclusive_emptied (live : List Nat) (m m1 : Mem Deleter) (a : Nat)
    (hex : exclusive live m)
    (hget : ∀ x, get x m1 = if x = a then nullptr else get x m) :
    exclusive live m1 := by
  intro x hx y hy hxy hnz
  rw [hget x] at hnz
  rw [hget x, hget y]
  by_cases hxa : x = a
  · simp [hxa] at hnz
  · simp only [hxa, if_false] at hnz ⊢
    by_cases hya : y = a
    · simpa [hya] using hnz
    · simp only [hya, if_false]
      exact hex x hx y hy hxy hnz

theorem exclusive_unique_ptr_move (live : List Nat) (m : Mem Deleter) (c a : Nat)
    (hex : exclusive live m) (ha : a ∈ live) :
    exclusive (c :: live) (unique_ptr_move c a m) :=
  exclusive_transfer live m _ c a hex ha (fun x => get_unique_ptr_move c a x m)

theorem exclusive_operator_assign_move (live : List Nat) (m : Mem Deleter) (a b : Nat)
    (hex : exclusive live m) (hb : b ∈ live) :
    exclusive live (operator_assign_move a b m) := by
  have h := exclusive_transfer live m _ a b hex hb
    (fun x => get_operator_assign_move a b x m)
  exact exclusive_mono live (a :: live) _ h (fun x hx => List.mem_cons_of_mem a hx)

theorem exclusive_swap (live : List Nat) (m : Mem Deleter) (a b : Nat)
    (hex : exclusive live m) (ha : a ∈ live) (hb : b ∈ live) :
    exclusive live (swap a b m) := by
  have hmem : ∀ x ∈ live, Equiv.swap a b x ∈ live := by
    intro x hx
    by_cases hxa : x = a
    · rw [hxa, Equiv.swap_apply_left]; exact hb
    · by_cases hxb : x = b
      · rw [hxb, Equiv.swap_apply_right]; exact ha
      · rw [Equiv.swap_apply_of_ne_of_ne hxa hxb]; exact hx
  intro x hx y hy hxy hnz
  rw [get_swap] at hnz
  rw [get_swap, get_swap]
  exact hex _ (hmem x hx) _ (hmem y hy)
    (fun h => hxy ((Equiv.swap a b).injective h)) hnz

theorem exclusive_release (live : List Nat) (m : Mem Deleter) (a : Nat)
    (hex : exclusive live m) : exclusive live (release a m).2 :=
  exclusive_emptied live m _ a hex (fun x => get_release a x m)

theorem exclusive_reset_nullptr (live : List Nat) (m : Mem Deleter) (a : Nat)
    (hex : exclusive live m) : exclusive live (reset a nullptr m) :=
  exclusive_emptied live m _ a hex (fun x => get_reset a x nullptr m)

/-- C13: in a system with the live wrappers `live`, no two of which hold the same non-empty
handle, that property still holds after each ownership operation on live wrappers `A` and
`B`: the transfer construction of a new wrapper `C` from `A` (with `C` now live as well),
the transfer assignment `A = std::move(B)` between distinct wrappers, `A.swap(B)`,
`A.release()` and `A.reset()` with the null pointer. -/
theorem C13_exclusivity_preserved (live : List Nat) (m : Mem Deleter) (a b c : Nat)
    (hex : exclusive live m) (ha : a ∈ live) (hb : b ∈ live) (hab : a ≠ b)
    (hc : c ∉ live) :
    exclusive (c :: live) (unique_ptr_move c a m) ∧
    get a (unique_ptr_move c a m) = nullptr ∧
    get c (unique_ptr_move c a m) = get a m ∧
    exclusive live (operator_assign_move a b m) ∧
    get a (operator_assign_move a b m) = get b m ∧
    get b (operator_assign_move a b m) = nullptr ∧
    exclusive live (swap a b m) ∧
    exclusive live (release a m).2 ∧
    exclusive live (reset a nullptr m) := by
  have hca : c ≠ a := fun h => hc (h ▸ ha)
  refine ⟨exclusive_unique_ptr_move live m c a hex ha, ?_, ?_,
    exclusive_operator_assign_move live m a b hex hb, ?_, ?_,
    exclusive_swap live m a b hex ha hb, exclusive_release live m a hex,
    exclusive_reset_nullptr live m a hex⟩
  · rw [get_unique_ptr_move]; simp [hca.symm]
  · rw [get_unique_ptr_move]; simp
  · rw [get_operator_assign_move]; simp
  · rw [get_operator_assign_move]; simp [hab.symm]

/-- Witness of C13: `sampleMem` with the live wrappers at addresses `0`, `1` and `2`;
`A` at `1`, `B` at `2`, the new wrapper `C` at `3`. -/
theorem C13_exclusivity_preserved_witness :
    exclusive [0, 1, 2] sampleMem ∧ 1 ∈ [0, 1, 2] ∧ 2 ∈ [0, 1, 2] ∧ (1 : Nat) ≠ 2 ∧
    3 ∉ [0, 1, 2] ∧
    (exclusive (3 :: [0, 1, 2]) (unique_ptr_move 3 1 sampleMem) ∧
     get 1 (unique_ptr_move 3 1 sampleMem) = nullptr ∧
     get 3 (unique_ptr_move 3 1 sampleMem) = get 1 sampleMem ∧
     exclusive [0, 1, 2] (operator_assign_move 1 2 sampleMem) ∧
     get 1 (operator_assign_move 1 2 sampleMem) = get 2 sampleMem ∧
     get 2 (operator_assign_move 1 2 sampleMem) = nullptr ∧
     exclusive [0, 1, 2] (swap 1 2 sampleMem) ∧
     exclusive [0, 1, 2] (release 1 sampleMem).2 ∧
     exclusive [0, 1, 2] (reset 1 nullptr sampleMem)) :=
  ⟨by decide, by decide, by decide, by decide, by decide,
   C13_exclusivity_preserved [0, 1, 2] sampleMem 1 2 3
     (by decide) (by decide) (by decide) (by decide) (by decide)⟩

/-! ## Every handle is released at most once -/

/-- Exclusivity after the handle `p`, held by no other live wrapper, is stored in the
wrapper at `c`. -/
theorem exclusive_stored (live : List Nat) (m m1 : Mem Deleter) (c : Nat) (p : pointer_type)
    (hex : exclusive live m)
    (hget : ∀ x, get x m1 = if x = c then p else get x m)
    (hfresh : p ≠ nullptr → ∀ x ∈ live, x ≠ c → get x m ≠ p) :
    exclusive (c :: live) m1 := by
  intro x hx y hy hxy hnz
  rw [hget x] at hnz
  rw [hget x, hget y]
  by_cases hxc : x = c
  · have hyc : ¬ y = c := fun h => hxy (hxc.trans h.symm)
    have hyl : y ∈ live := by
      rcases List.mem_cons.mp hy with h | h
      · exact absurd h hyc
      · exact h
    simp only [hxc, if_true] at hnz
    simp only [hxc, if_true, hyc, if_false]
    exact fun h => hfresh hnz y hyl hyc h.symm
  · have hxl : x ∈ live := by
      rcases List.mem_cons.mp hx with h | h
      · exact absurd h hxc
      · exact h
    simp only [hxc, if_false] at hnz ⊢
    by_cases hyc : y = c
    · simp only [hyc, if_true]
      by_cases hz : p = nullptr
      · rw [hz]; exact hnz
      · exact hfresh hz x hxl hxc
    · have hyl : y ∈ live := by
        rcases List.mem_cons.mp hy with h | h
        · exact absurd h hyc
        · exact h
      simp only [hyc, if_false]
      exact hex x hxl y hyl hxy hnz

/-- In an exclusive memory two distinct wrappers do not hold the same non-empty handle. -/
theorem owned_once.ne (m : Mem Deleter) (h : owned_once m) (x y : Nat) (hxy : x ≠ y)
    (hnz : get x m ≠ nullptr) : get x m ≠ get y m :=
  h.1 [x, y] x (by simp) y (by simp) hxy hnz

/-- The invariant carries over to a memory whose wrappers are exclusive, whose held handles
were held before, and whose trace has gained no call on a non-empty handle or exactly one,
on a handle that was held and is held no more. -/
theorem owned_once_step (m m1 : Mem Deleter) (h : owned_once m)
    (hE : ∀ live : List Nat, exclusive live m1)
    (hrel : released m1 = released m ∨
      ∃ a, get a m ≠ nullptr ∧ released m1 = released m ++ [get a m] ∧
        ∀ x, get x m1 ≠ get a m)
    (hheld : ∀ x, get x m1 ≠ nullptr → ∃ y, get y m = get x m1) :
    owned_once m1 := by
  obtain ⟨_, hN, hF⟩ := h
  have hold : ∀ x, get x m1 ≠ nullptr → get x m1 ∉ released m := by
    intro x hx
    obtain ⟨y, hy⟩ := hheld x hx
    rw [← hy]
    exact hF y (by rw [hy]; exact hx)
  rcases hrel with hsame | ⟨a, ha, happ, hgone⟩
  · refine ⟨hE, ?_, ?_⟩
    · rw [hsame]; exact hN
    · intro x hx
      rw [hsame]
      exact hold x hx
  · refine ⟨hE, ?_, ?_⟩
    · rw [happ]
      refine List.Nodup.append hN (List.nodup_singleton _) ?_
      intro z hz1 hz2
      rw [List.mem_singleton] at hz2
      exact hF a ha (hz2 ▸ hz1)
    · intro x hx
      rw [happ, List.mem_append, List.mem_singleton]
      rintro (h1 | h2)
      · exact hold x hx h1
      · exact hgone x h2

theorem owned_once_unique_ptr_move (c a : Nat) (m : Mem Deleter) (h : owned_once m) :
    owned_once (unique_ptr_move c a m) := by
  refine owned_once_step m _ h ?_ (Or.inl rfl) ?_
  · intro live
    have h1 := exclusive_unique_ptr_move (a :: live) m c a (h.1 _) (by simp)
    exact exclusive_mono live _ _ h1 (fun x hx => by simp [hx])
  · intro x hx
    rw [get_unique_ptr_move] at hx ⊢
    by_cases hxc : x = c
    · exact ⟨a, by simp [hxc]⟩
    · by_cases hxa : x = a
      · subst hxa
        simp [hxc] at hx
      · exact ⟨x, by simp [hxc, hxa]⟩

theorem owned_once_swap (a b : Nat) (m : Mem Deleter) (h : owned_once m) :
    owned_once (swap a b m) := by
  refine owned_once_step m _ h ?_ (Or.inl rfl) ?_
  · intro live
    have h1 := exclusive_swap (a :: b :: live) m a b (h.1 _) (by simp) (by simp)
    exact exclusive_mono live _ _ h1 (fun x hx => by simp [hx])
  · intro x _
    exact ⟨Equiv.swap a b x, (get_swap a b x m).symm⟩

theorem owned_once_reset_nullptr (a : Nat) (m : Mem Deleter) (h : owned_once m) :
    owned_once (reset a nullptr m) := by
  refine owned_once_step m _ h (fun live => exclusive_reset_nullptr live m a (h.1 _)) ?_ ?_
  · rw [released_reset]
    by_cases hz : get a m = nullptr
    · left; simp [hz]
    · right
      refine ⟨a, hz, ?_, ?_⟩
      · have hz1 : ¬ nullptr = get a m := fun e => hz e.symm
        simp [hz, hz1]
      · intro x
        rw [get_reset]
        by_cases hxa : x = a
        · simpa [hxa] using fun e : nullptr = get a m => hz e.symm
        · simp only [hxa, if_false]
          exact fun e => owned_once.ne m h a x (fun e1 => hxa e1.symm) hz e.symm
  · intro x hx
    rw [get_reset] at hx ⊢
    by_cases hxa : x = a
    · simp [hxa] at hx
    · exact ⟨x, by simp [hxa]⟩

theorem released_operator_assign_move (a b : Nat) (m : Mem Deleter) :
    released (operator_assign_move a b m)
      = if get b m = (if a = b then nullptr else get a m) then released m
        else released m ++ (if (if a = b then nullptr else get a m) = nullptr then []
          else [if a = b then nullptr else get a m]) := by
  have h1 : operator_assign_move a b m = reset a (get b m) (set_pointer b nullptr m) := rfl
  have h2 : released (set_pointer b nullptr m) = released m := rfl
  rw [h1, released_reset, h2, get_set_pointer]

theorem owned_once_operator_assign_move (a b : Nat) (m : Mem Deleter) (h : owned_once m) :
    owned_once (operator_assign_move a b m) := by
  refine owned_once_step m _ h ?_ ?_ ?_
  · intro live
    have h1 := exclusive_operator_assign_move (b :: live) m a b (h.1 _) (by simp)
    exact exclusive_mono live _ _ h1 (fun x hx => by simp [hx])
  · rw [released_operator_assign_move]
    by_cases hab : a = b
    · left
      by_cases hz : get b m = nullptr
      · simp [hab, hz]
      · simp [hab, hz]
    · by_cases he : get b m = get a m
      · left; simp [hab, he]
      · by_cases hz : get a m = nullptr
        · left; simp [hab, he, hz]
        · right
          refine ⟨a, hz, by simp [hab, he, hz], ?_⟩
          intro x
          rw [get_operator_assign_move]
          by_cases hxa : x = a
          · simpa [hxa] using he
          · by_cases hxb : x = b
            · subst hxb
              simpa [hxa] using fun e : nullptr = get a m => hz e.symm
            · simp only [hxa, hxb, if_false]
              exact fun e => owned_once.ne m h a x (fun e1 => hxa e1.symm) hz e.symm
  · intro x hx
    rw [get_operator_assign_move] at hx ⊢
    by_cases hxa : x = a
    · exact ⟨b, by simp [hxa]⟩
    · by_cases hxb : x = b
      · subst hxb
        simp [hxa] at hx
      · exact ⟨x, by simp [hxa, hxb]⟩

theorem owned_once_step_op (op : Op) (m : Mem Deleter) (h : owned_once m) :
    owned_once (step op m) := by
  cases op with
  | move_construct this ptr => exact owned_once_unique_ptr_move this ptr m h
  | assign_move this r => exact owned_once_operator_assign_move this r m h
  | swap this ptr => exact owned_once_swap this ptr m h
  | reset_empty this => exact owned_once_reset_nullptr this m h
  | assign_nullptr this => exact owned_once_reset_nullptr this m h
  | destroy this => exact owned_once_reset_nullptr this m h

theorem owned_once_run (ops : List Op) :
    ∀ m : Mem Deleter, owned_once m → owned_once (run ops m) := by
  induction ops with
  | nil => intro m h; exact h
  | cons op rest ih => intro m h; exact ih (step op m) (owned_once_step_op op m h)

theorem owned_once_construct_all (inits : List (Nat × pointer_type × Deleter)) :
    ∀ m : Mem Deleter, (∀ live : List Nat, exclusive live m) → m.calls = [] →
      (inits.map (fun i => i.2.1)).Nodup →
      (∀ x, get x m ≠ nullptr → get x m ∉ inits.map (fun i => i.2.1)) →
      owned_once (construct_all inits m) := by
  induction inits with
  | nil =>
    intro m hE hcalls _ _
    have hr : released m = [] := by simp [released, hcalls]
    show owned_once m
    refine ⟨hE, ?_, ?_⟩
    · rw [hr]; exact List.nodup_nil
    · intro x _
      rw [hr]; exact List.not_mem_nil _
  | cons i rest ih =>
    intro m hE hcalls hnd hheld
    rw [List.map_cons, List.nodup_cons] at hnd
    have hget : ∀ x, get x (unique_ptr_from_pointer_deleter i.1 i.2.1 i.2.2 m)
        = if x = i.1 then i.2.1 else get x m := by
      intro x
      simp [unique_ptr_from_pointer_deleter, get_set_pointer]
    show owned_once (construct_all rest (unique_ptr_from_pointer_deleter i.1 i.2.1 i.2.2 m))
    apply ih (unique_ptr_from_pointer_deleter i.1 i.2.1 i.2.2 m)
    · intro live
      have hfresh : i.2.1 ≠ nullptr → ∀ x ∈ live, x ≠ i.1 → get x m ≠ i.2.1 := by
        intro hH x _ _ hx
        have hz : get x m ≠ nullptr := by rw [hx]; exact hH
        exact hheld x hz (by rw [hx]; simp)
      have h1 := exclusive_stored live m _ i.1 i.2.1 (hE live) hget hfresh
      exact exclusive_mono live _ _ h1 (fun x hx => by simp [hx])
    · exact hcalls
    · exact hnd.2
    · intro x hx
      rw [hget] at hx ⊢
      by_cases hxa : x = i.1
      · simp only [hxa, if_true]
        exact hnd.1
      · simp only [hxa, if_false] at hx ⊢
        exact fun hmem => hheld x hx (by simp [hmem])

theorem owned_once_no_wrappers (d0 : Deleter) :
    (∀ live : List Nat, exclusive live (no_wrappers d0)) ∧ (no_wrappers d0).calls = [] ∧
    ∀ x, get x (no_wrappers d0) = nullptr :=
  ⟨fun _ _ _ _ _ _ hnz => absurd rfl hnz, rfl, fun _ => rfl⟩

/-- The program used in the witness of C14: all six kinds of operation, among them a self
assignment, on two wrappers constructed over `100` and `200`.  Its deleter calls, in order:
on `200`, on the null pointer, on `100`. -/
theorem sample_program_calls :
    (run [Op.move_construct 3 1, Op.assign_move 2 3, Op.assign_move 2 2, Op.swap 1 2,
          Op.reset_empty 1, Op.assign_nullptr 1, Op.destroy 2, Op.destroy 3]
        (construct_all [(1, 100, 11), (2, 200, 12)] (no_wrappers 0))).calls
      = [⟨12, 200⟩, ⟨12, nullptr⟩, ⟨12, 100⟩] := by
  decide

/-- C14: wrappers are constructed by `unique_ptr(H, d)` over pairwise distinct handles, in a
memory where no deleter has been called; then any sequence of transfer constructions,
transfer assignments (self assignments among them), swaps, `reset()` with the null pointer,
assignments of the null pointer and destructions is run.  In the resulting trace the
non-null handles passed to a deleter are pairwise distinct: every non-null handle occurs at
most once among the arguments of the deleter calls. -/
theorem C14_each_handle_released_at_most_once (d0 : Deleter)
    (inits : List (Nat × pointer_type × Deleter)) (ops : List Op)
    (hd : (inits.map (fun i => i.2.1)).Nodup) :
    (released (run ops (construct_all inits (no_wrappers d0)))).Nodup ∧
    ∀ h : pointer_type, h ≠ nullptr →
      ((run ops (construct_all inits (no_wrappers d0))).calls.map Call.arg).count h ≤ 1 := by
  obtain ⟨hE, hcalls, hnull⟩ := owned_once_no_wrappers d0
  have h0 : owned_once (construct_all inits (no_wrappers d0)) :=
    owned_once_construct_all inits (no_wrappers d0) hE hcalls hd
      (fun x hx => absurd (hnull x) hx)
  have h1 := (owned_once_run ops _ h0).2.1
  refine ⟨h1, ?_⟩
  intro h hh
  have hc := List.nodup_iff_count_le_one.mp h1 h
  unfold released at hc
  rwa [List.count_filter (by simpa using hh)] at hc

/-- Witness of C14: wrappers at addresses `1` and `2` constructed over the handles `100`
and `200`, then a program with all six kinds of operation. -/
theorem C14_each_handle_released_at_most_once_witness :
    ([((1 : Nat), (100 : pointer_type), (11 : Nat)), (2, 200, 12)].map
        (fun i => i.2.1)).Nodup ∧
    ((released (run [Op.move_construct 3 1, Op.assign_move 2 3, Op.assign_move 2 2,
          Op.swap 1 2, Op.reset_empty 1, Op.assign_nullptr 1, Op.destroy 2, Op.destroy 3]
        (construct_all [(1, 100, 11), (2, 200, 12)] (no_wrappers 0)))).Nodup ∧
     ∀ h : pointer_type, h ≠ nullptr →
      ((run [Op.move_construct 3 1, Op.assign_move 2 3, Op.assign_move 2 2,
          Op.swap 1 2, Op.reset_empty 1, Op.assign_nullptr 1, Op.destroy 2, Op.destroy 3]
        (construct_all [(1, 100, 11), (2, 200, 12)] (no_wrappers 0))).calls.map
          Call.arg).count h ≤ 1) :=
  ⟨by decide,
   C14_each_handle_released_at_most_once 0 [(1, 100, 11), (2, 200, 12)]
     [Op.move_construct 3 1, Op.assign_move 2 3, Op.assign_move 2 2, Op.swap 1 2,
      Op.reset_empty 1, Op.assign_nullptr 1, Op.destroy 2, Op.destroy 3] (by decide)⟩

end eda
